import Mathlib

/-!
Shallow embedding of the `ta-rs` incremental-indicator core:
`src/indicators/trend_magic.rs` and
`src/indicators/volume_weighted_average_price.rs`.

Machine floats (`f64`) are modelled as exact rationals `ℚ`; the square root
taken by VWAP's standard deviation is the real square root, applied to the
stored (clamped) radicand.  Fallible construction is modelled by an explicit
outcome type distinguishing a returned error value from a panic (`unwrap` of
an error).  State-mutating `next`/`reset` methods become pure functions from
the old state to the new state (plus the returned output).
-/

/-- One OHLCV bar, the input boundary.  Mirrors the accessor set
(`open/high/low/close/volume`) used by the indicators; `open` is renamed
`open_` because `open` is a Lean keyword. -/
structure Bar where
  open_ : ℚ
  high : ℚ
  low : ℚ
  close : ℚ
  volume : ℚ
  deriving DecidableEq, Repr

/-- Modelled from the spec: the error type of the repository's `errors`
module (not under `src/`); the only construction error condition is
`InvalidParameter`. -/
inductive TaError where
  | invalidParameter
  deriving DecidableEq, Repr

/-- Outcome of running a constructor: a value, a returned error, or a panic
(the result of `unwrap()` on an `Err`). -/
inductive Construction (α : Type) where
  | ok (value : α)
  | err (e : TaError)
  | panicked
  deriving DecidableEq, Repr

/-- Modelled from the spec: `TrueRange` (not under `src/`), "max of
(high−low), |high−previous close|, |low−previous close|"; its state is the
previous close, zero-initialised. -/
structure TrueRange where
  prev_close : ℚ
  deriving DecidableEq, Repr

/-- Modelled from the spec: `TrueRange::new()` starts from the zero state. -/
def TrueRange.new : TrueRange := ⟨0⟩

/-- Modelled from the spec: one `TrueRange` step; returns the new state and
the true-range value. -/
def TrueRange.next (s : TrueRange) (b : Bar) : TrueRange × ℚ :=
  (⟨b.close⟩, max (b.high - b.low) (max |b.high - s.prev_close| |b.low - s.prev_close|))

/-- Modelled from the spec: `TrueRange` reset returns to the initial state. -/
def TrueRange.reset (_ : TrueRange) : TrueRange := ⟨0⟩

/-- Modelled from the spec: `SimpleMovingAverage` (not under `src/`), a
"fixed-window running mean over a numeric stream"; the state keeps the most
recent values, newest first, at most `period` of them. -/
structure SimpleMovingAverage where
  period : ℕ
  window : List ℚ
  deriving DecidableEq, Repr

/-- Modelled from the spec: `SimpleMovingAverage::new(period)` fails with
`InvalidParameter` on a zero period, otherwise starts with an empty window. -/
def SimpleMovingAverage.new (period : ℕ) : Construction SimpleMovingAverage :=
  if period = 0 then .err .invalidParameter else .ok ⟨period, []⟩

/-- Modelled from the spec: one `SimpleMovingAverage` step; pushes the value
into the window (bounded by `period`) and returns the mean of the window. -/
def SimpleMovingAverage.next (s : SimpleMovingAverage) (v : ℚ) :
    SimpleMovingAverage × ℚ :=
  let w := (v :: s.window).take s.period
  (⟨s.period, w⟩, w.sum / (w.length : ℚ))

/-- Modelled from the spec: `SimpleMovingAverage` reset empties the window,
keeping the construction-time period. -/
def SimpleMovingAverage.reset (s : SimpleMovingAverage) : SimpleMovingAverage :=
  ⟨s.period, []⟩

/-- Typical price of a bar: (high + low + close) / 3 (glossary). -/
def Bar.tp (b : Bar) : ℚ := (b.high + b.low + b.close) / 3

/-- Modelled from the spec: `CommodityChannelIndex` (not under `src/`), "a
momentum oscillator comparing typical price to its moving average, scaled by
mean absolute deviation"; the state keeps the recent typical prices. -/
structure CommodityChannelIndex where
  period : ℕ
  window : List ℚ
  deriving DecidableEq, Repr

/-- Modelled from the spec: `CommodityChannelIndex::new(period)` fails with
`InvalidParameter` on a zero period. -/
def CommodityChannelIndex.new (period : ℕ) : Construction CommodityChannelIndex :=
  if period = 0 then .err .invalidParameter else .ok ⟨period, []⟩

/-- Modelled from the spec: one `CommodityChannelIndex` step; the output is
(tp − mean) / (0.015 · mean absolute deviation) over the window of typical
prices (0.015 is the conventional CCI scaling constant). -/
def CommodityChannelIndex.next (s : CommodityChannelIndex) (b : Bar) :
    CommodityChannelIndex × ℚ :=
  let tp := b.tp
  let w := (tp :: s.window).take s.period
  let m := w.sum / (w.length : ℚ)
  let mad := (w.map (fun x => |x - m|)).sum / (w.length : ℚ)
  (⟨s.period, w⟩, (tp - m) / (3 / 200 * mad))

/-- Modelled from the spec: `CommodityChannelIndex` reset empties the
window, keeping the construction-time period. -/
def CommodityChannelIndex.reset (s : CommodityChannelIndex) : CommodityChannelIndex :=
  ⟨s.period, []⟩

/-- `crossover` from `trend_magic.rs`:
`previous_x <= previous_y && current_x >= current_y`. -/
def crossover (previous_x previous_y current_x current_y : ℚ) : Bool :=
  let condition1 := decide (previous_x ≤ previous_y)
  let condition2 := decide (current_x ≥ current_y)
  condition1 && condition2

/-- `crossunder` from `trend_magic.rs`:
`previous_x >= previous_y && current_x <= current_y`. -/
def crossunder (previous_x previous_y current_x current_y : ℚ) : Bool :=
  let condition1 := decide (previous_x ≥ previous_y)
  let condition2 := decide (current_x ≤ current_y)
  condition1 && condition2

/-- `cross` from `trend_magic.rs`, transcribed exactly as written: it ORs
the `crossover` test with a second call to `crossover` (not `crossunder`). -/
def cross (previous_x previous_y current_x current_y : ℚ) : Bool :=
  let crossover_result := crossover previous_x previous_y current_x current_y
  let crossunder_result := crossover previous_x previous_y current_x current_y
  crossover_result || crossunder_result

/-- `TrendMagic` state from `trend_magic.rs`. -/
structure TrendMagic where
  atr_multiplier : ℚ
  previous_trend_magic : ℚ
  previous_low : ℚ
  previous_high : ℚ
  previous_close : ℚ
  tr : TrueRange
  tr_sma : SimpleMovingAverage
  cci : CommodityChannelIndex
  deriving DecidableEq, Repr

/-- `TrendMagic::new` from `trend_magic.rs`: zero-initialises the stored
previous values and calls `.unwrap()` on the sub-indicator constructors, so
an `InvalidParameter` error from either sub-constructor becomes a panic. -/
def TrendMagic.new (atr_periods : ℕ) (atr_multiplier : ℚ) (cci_periods : ℕ) :
    Construction TrendMagic :=
  match SimpleMovingAverage.new atr_periods, CommodityChannelIndex.new cci_periods with
  | .ok tr_sma, .ok cci =>
      .ok ⟨atr_multiplier, 0, 0, 0, 0, TrueRange.new, tr_sma, cci⟩
  | _, _ => .panicked

/-- `TrendMagic::next` from `trend_magic.rs`, transcribed line by line:
true range, SMA of true range as the ATR surrogate, CCI, ratcheted trend
line, the three cross signals (with the argument order of the source's call
sites preserved), then the state update. -/
def TrendMagic.next (s : TrendMagic) (input : Bar) :
    TrendMagic × (Bool × Bool × Bool) :=
  let trStep := s.tr.next input
  let tr := trStep.2
  let smaStep := s.tr_sma.next tr
  let tr_sma := smaStep.2
  let atr := tr_sma
  let cciStep := s.cci.next input
  let cci := cciStep.2
  let up := input.low - atr * s.atr_multiplier
  let down := input.high + atr * s.atr_multiplier
  let current_trend_magic :=
    if cci ≥ 0 then
      if up < s.previous_trend_magic then s.previous_trend_magic else up
    else
      if down > s.previous_trend_magic then s.previous_trend_magic else down
  let cross1 := cross input.close current_trend_magic s.previous_close s.previous_trend_magic
  let cross2 := crossover input.low current_trend_magic s.previous_low s.previous_trend_magic
  let cross3 := crossunder input.high current_trend_magic s.previous_high s.previous_trend_magic
  ({ s with
      previous_trend_magic := current_trend_magic
      previous_close := input.close
      previous_high := input.high
      previous_low := input.low
      tr := trStep.1
      tr_sma := smaStep.1
      cci := cciStep.1 },
   (cross1, cross2, cross3))

/-- `Reset for TrendMagic` from `trend_magic.rs`: zeroes the stored previous
values and resets every owned sub-indicator. -/
def TrendMagic.reset (s : TrendMagic) : TrendMagic :=
  { s with
      previous_close := 0
      previous_high := 0
      previous_low := 0
      previous_trend_magic := 0
      tr := s.tr.reset
      tr_sma := s.tr_sma.reset
      cci := s.cci.reset }

/-- `Display for TrendMagic` from `trend_magic.rs`: a fixed string that does
not mention any construction parameter. -/
def TrendMagic.display (_ : TrendMagic) : String :=
  "Trend Magic by KivancOzbilgic"

/-- Feed a list of bars through `TrendMagic`, left to right. -/
def runTrendMagic (s : TrendMagic) (bars : List Bar) : TrendMagic :=
  bars.foldl (fun s b => (s.next b).1) s

/-- The CCI value that `TrendMagic.next` computes on this call. -/
def tmStepCCI (s : TrendMagic) (b : Bar) : ℚ := (s.cci.next b).2

/-- The newly computed trend-line value of a `TrendMagic.next` call (the
value the call stores into `previous_trend_magic`). -/
def tmTrendLine (s : TrendMagic) (b : Bar) : ℚ :=
  (s.next b).1.previous_trend_magic

/-- A bar list is a bullish run from state `s` when the CCI value computed
at every step is ≥ 0. -/
def bullishRun (s : TrendMagic) : List Bar → Bool
  | [] => true
  | b :: bs => decide (0 ≤ tmStepCCI s b) && bullishRun (s.next b).1 bs

/-- A bar list is a bearish run from state `s` when the CCI value computed
at every step is < 0. -/
def bearishRun (s : TrendMagic) : List Bar → Bool
  | [] => true
  | b :: bs => decide (tmStepCCI s b < 0) && bearishRun (s.next b).1 bs

/-- `VolumeWeightedAveragePriceBands` from
`volume_weighted_average_price.rs`. -/
inductive VolumeWeightedAveragePriceBands where
  | Up
  | Down
  deriving DecidableEq, Repr

/-- `VolumeWeightedAveragePriceSource` from
`volume_weighted_average_price.rs` (only `HLC3` exists). -/
inductive VolumeWeightedAveragePriceSource where
  | HLC3
  deriving DecidableEq, Repr

/-- `VolumeWeightedAveragePrice` state from
`volume_weighted_average_price.rs`.  The source stores `std_dev : f64`; here
the state keeps the clamped radicand (`variance`), and the stored standard
deviation is its real square root (`stdDevValue` below) — the two
representations carry the same information because the source only ever
writes `std_dev = sqrt(clamped variance)`. -/
structure VolumeWeightedAveragePrice where
  cumulative_total : ℚ
  cumulative_volume : ℚ
  cumulative_v2 : ℚ
  vwap : ℚ
  variance : ℚ
  period : ℕ
  source : VolumeWeightedAveragePriceSource
  deriving DecidableEq, Repr

/-- `VolumeWeightedAveragePrice::new` from the source: zero period fails
with `InvalidParameter`, any other period yields the zeroed state. -/
def VolumeWeightedAveragePrice.new (period : ℕ) :
    Construction VolumeWeightedAveragePrice :=
  match period with
  | 0 => .err .invalidParameter
  | _ => .ok ⟨0, 0, 0, 0, 0, period, .HLC3⟩

/-- `VolumeWeightedAveragePrice::typical_price` from the source:
(high + low + close) / 3 under the `HLC3` source. -/
def VolumeWeightedAveragePrice.typical_price
    (s : VolumeWeightedAveragePrice) (d : Bar) : ℚ :=
  match s.source with
  | .HLC3 => (d.high + d.low + d.close) / 3

/-- `VolumeWeightedAveragePrice`'s `next` from the source, transcribed line
by line; returns the new state and the returned `vwap` value.  The final
two source lines `val = cum_v2/cum_vol − vwap·vwap; std_dev =
sqrt(val.max(0.0))` store `val.max(0.0)` as the `variance` field here. -/
def VolumeWeightedAveragePrice.next
    (s : VolumeWeightedAveragePrice) (d : Bar) :
    VolumeWeightedAveragePrice × ℚ :=
  let typical_price := s.typical_price d
  let cumulative_volume := d.volume + s.cumulative_volume
  let cumulative_total := typical_price * d.volume + s.cumulative_total
  let vwap := cumulative_total / cumulative_volume
  let cumulative_v2 := d.volume * typical_price * typical_price + s.cumulative_v2
  let val := cumulative_v2 / cumulative_volume - vwap * vwap
  ({ s with
      cumulative_total := cumulative_total
      cumulative_volume := cumulative_volume
      cumulative_v2 := cumulative_v2
      vwap := vwap
      variance := max val 0 },
   vwap)

/-- The stored standard deviation: the real square root of the stored
clamped variance. -/
noncomputable def VolumeWeightedAveragePrice.stdDevValue
    (s : VolumeWeightedAveragePrice) : ℝ :=
  Real.sqrt (s.variance : ℝ)

/-- `VolumeWeightedAveragePrice::std_dev` band query from the source:
`vwap ± offset · std_dev`, a pure read. -/
noncomputable def VolumeWeightedAveragePrice.std_dev
    (s : VolumeWeightedAveragePrice) (offset : ℝ)
    (band_direction : VolumeWeightedAveragePriceBands) : ℝ :=
  match band_direction with
  | .Up => (s.vwap : ℝ) + offset * s.stdDevValue
  | .Down => (s.vwap : ℝ) - offset * s.stdDevValue

/-- `Reset for VolumeWeightedAveragePrice` from the source: zeroes every
cumulative field (the period and source are kept). -/
def VolumeWeightedAveragePrice.reset
    (s : VolumeWeightedAveragePrice) : VolumeWeightedAveragePrice :=
  { s with
      cumulative_total := 0
      cumulative_volume := 0
      cumulative_v2 := 0
      vwap := 0
      variance := 0 }

/-- `Display for VolumeWeightedAveragePrice` from the source:
`VWAP({period})`. -/
def VolumeWeightedAveragePrice.display
    (s : VolumeWeightedAveragePrice) : String :=
  "VWAP(" ++ toString s.period ++ ")"

/-- Feed a list of bars through VWAP, left to right. -/
def runVWAP (s : VolumeWeightedAveragePrice) (bars : List Bar) :
    VolumeWeightedAveragePrice :=
  bars.foldl (fun s b => (s.next b).1) s

/-- Concrete sample instance: `TrendMagic::new(1, 1.0, 2)`. -/
def sampleTM : TrendMagic := ⟨1, 0, 0, 0, 0, ⟨0⟩, ⟨1, []⟩, ⟨2, []⟩⟩

/-- Concrete sample bar with high 6, low 5, close 5. -/
def sampleBar1 : Bar := ⟨5, 6, 5, 5, 1⟩

/-- Concrete sample bar with all prices 1. -/
def sampleBar2 : Bar := ⟨1, 1, 1, 1, 1⟩

/-- C1: the spec's close/trend-line cross signal is a touch-or-cross test in
either direction, but the source's `cross` helper ORs the `crossover` test
with itself, so only one direction is ever tested: on the first bar after
construction with close 5 against a trend line of 0, the claimed condition
holds (previous close 0 ≤ previous trend 0 and current close 5 ≥ current
trend 0) yet the code's first output component is `false`. -/
theorem c1_cross_signal_code_bug :
    ((sampleTM.next sampleBar1).2.1 = false) ∧
    ((sampleTM.previous_close ≤ sampleTM.previous_trend_magic ∧
      sampleBar1.close ≥ tmTrendLine sampleTM sampleBar1) ∨
     (sampleTM.previous_close ≥ sampleTM.previous_trend_magic ∧
      sampleBar1.close ≤ tmTrendLine sampleTM sampleBar1)) := by
  constructor
  · simp [sampleTM, sampleBar1, TrendMagic.next, TrueRange.next,
      SimpleMovingAverage.next, CommodityChannelIndex.next, cross, crossover,
      crossunder, Bar.tp]
    norm_num
  · left
    constructor
    · simp [sampleTM]
    · simp [sampleTM, sampleBar1, tmTrendLine, TrendMagic.next, TrueRange.next,
        SimpleMovingAverage.next, CommodityChannelIndex.next, cross, crossover,
        crossunder, Bar.tp]
      norm_num

/-- C2 counterexample: the claim says the low/trend-line signal fires when
the previous low was at or below the previous trend line and the current
low is at or above the new trend line; on the first bar after construction
(previous low 0 ≤ previous trend 0, current low 5 ≥ current trend 0) that
condition holds, yet the code's second output component is `false`, because
the call site passes the current values into the `previous_*` parameters of
`crossover`. -/
theorem c2_crossover_counterexample :
    ((sampleTM.next sampleBar1).2.2.1 = false) ∧
    (sampleTM.previous_low ≤ sampleTM.previous_trend_magic ∧
     sampleBar1.low ≥ tmTrendLine sampleTM sampleBar1) := by
  refine ⟨?_, ?_, ?_⟩
  · simp [sampleTM, sampleBar1, TrendMagic.next, TrueRange.next,
      SimpleMovingAverage.next, CommodityChannelIndex.next, cross, crossover,
      crossunder, Bar.tp]
    norm_num
  · simp [sampleTM]
  · simp [sampleTM, sampleBar1, tmTrendLine, TrendMagic.next, TrueRange.next,
      SimpleMovingAverage.next, CommodityChannelIndex.next, cross, crossover,
      crossunder, Bar.tp]
    norm_num

/-- C2 (amended): the second output component of `TrendMagic`'s consume is
true if and only if the current bar's low is at or below the newly computed
trend-line value AND the previous bar's low is at or above the previous
trend-line value — the `crossover` helper's test with the call site's
swapped argument order. -/
theorem c2_crossover_amended (s : TrendMagic) (b : Bar) :
    (s.next b).2.2.1 = true ↔
      (b.low ≤ tmTrendLine s b ∧ s.previous_trend_magic ≤ s.previous_low) := by
  simp [TrendMagic.next, tmTrendLine, crossover, and_comm]

/-- One bullish step cannot lower the stored trend line. -/
theorem tmStep_bullish_mono (s : TrendMagic) (b : Bar)
    (h : 0 ≤ tmStepCCI s b) :
    s.previous_trend_magic ≤ (s.next b).1.previous_trend_magic := by
  simp only [TrendMagic.next, tmStepCCI] at *
  rw [if_pos h]
  split
  · exact le_refl _
  · exact le_of_not_lt (by assumption)

/-- One bearish step cannot raise the stored trend line. -/
theorem tmStep_bearish_mono (s : TrendMagic) (b : Bar)
    (h : tmStepCCI s b < 0) :
    (s.next b).1.previous_trend_magic ≤ s.previous_trend_magic := by
  simp only [TrendMagic.next, tmStepCCI] at *
  rw [if_neg (not_le.mpr h)]
  split
  · exact le_refl _
  · exact le_of_not_lt (by assumption)

/-- `runTrendMagic` over a cons. -/
theorem runTrendMagic_cons (s : TrendMagic) (b : Bar) (bs : List Bar) :
    runTrendMagic s (b :: bs) = runTrendMagic (s.next b).1 bs := rfl

/-- C5: across consecutive consume calls during which the CCI output stays
≥ 0, the stored trend-line value is non-decreasing; across calls during
which it stays < 0, non-increasing. -/
theorem c5_trend_line_ratchet (s : TrendMagic) (bs : List Bar) :
    (bullishRun s bs = true →
      s.previous_trend_magic ≤ (runTrendMagic s bs).previous_trend_magic) ∧
    (bearishRun s bs = true →
      (runTrendMagic s bs).previous_trend_magic ≤ s.previous_trend_magic) := by
  induction bs generalizing s with
  | nil => exact ⟨fun _ => le_refl _, fun _ => le_refl _⟩
  | cons b bs ih =>
      constructor
      · intro h
        rw [bullishRun, Bool.and_eq_true, decide_eq_true_eq] at h
        rw [runTrendMagic_cons]
        exact le_trans (tmStep_bullish_mono s b h.1) ((ih _).1 h.2)
      · intro h
        rw [bearishRun, Bool.and_eq_true, decide_eq_true_eq] at h
        rw [runTrendMagic_cons]
        exact le_trans ((ih _).2 h.2) (tmStep_bearish_mono s b h.1)

/-- C5 witness: a concrete one-bar bullish run from `sampleTM` (CCI value 0)
keeps the trend line ≥ its previous value, and a concrete one-bar bearish
run from the state after that bar (CCI value −200/3) keeps it ≤. -/
theorem c5_trend_line_ratchet_witness :
    (bullishRun sampleTM [sampleBar1] = true ∧
      sampleTM.previous_trend_magic ≤
        (runTrendMagic sampleTM [sampleBar1]).previous_trend_magic) ∧
    (bearishRun (sampleTM.next sampleBar1).1 [sampleBar2] = true ∧
      (runTrendMagic (sampleTM.next sampleBar1).1 [sampleBar2]).previous_trend_magic ≤
        (sampleTM.next sampleBar1).1.previous_trend_magic) := by
  have hb : bullishRun sampleTM [sampleBar1] = true := by
    simp [bullishRun, tmStepCCI, sampleTM, sampleBar1, CommodityChannelIndex.next, Bar.tp]
  have hr : bearishRun (sampleTM.next sampleBar1).1 [sampleBar2] = true := by
    simp [bearishRun, tmStepCCI, sampleTM, sampleBar1, sampleBar2, TrendMagic.next,
      TrueRange.next, SimpleMovingAverage.next, CommodityChannelIndex.next,
      cross, crossover, crossunder, Bar.tp]
    norm_num [abs_of_pos]
  exact ⟨⟨hb, (c5_trend_line_ratchet sampleTM [sampleBar1]).1 hb⟩,
    ⟨hr, (c5_trend_line_ratchet (sampleTM.next sampleBar1).1 [sampleBar2]).2 hr⟩⟩

/-- C3 counterexample: constructing `TrendMagic` with a zero ATR period
does not fail with an `InvalidParameter` error — it panics (the source
`.unwrap()`s the sub-indicator constructor's `Err`), and a panic is not an
`InvalidParameter` error result. -/
theorem c3_construction_counterexample :
    TrendMagic.new 0 1 20 = Construction.panicked ∧
    (Construction.panicked : Construction TrendMagic) ≠
      Construction.err TaError.invalidParameter := by
  constructor
  · cases hc : CommodityChannelIndex.new 20 <;>
      simp [TrendMagic.new, SimpleMovingAverage.new, hc]
  · simp

/-- C3 (amended): `VolumeWeightedAveragePrice::new(0)` fails with
`InvalidParameter` and any non-zero period succeeds, detected at
construction; `TrendMagic::new` with a zero ATR period or a zero CCI period
panics (it unwraps the sub-indicator's `InvalidParameter` error) instead of
returning an error, and succeeds for non-zero periods. -/
theorem c3_construction_amended (p cp : ℕ) (m : ℚ) :
    (VolumeWeightedAveragePrice.new 0 = .err .invalidParameter) ∧
    (p ≠ 0 → VolumeWeightedAveragePrice.new p = .ok ⟨0, 0, 0, 0, 0, p, .HLC3⟩) ∧
    (TrendMagic.new 0 m cp = .panicked) ∧
    (TrendMagic.new p m 0 = .panicked) ∧
    (p ≠ 0 → cp ≠ 0 →
      TrendMagic.new p m cp = .ok ⟨m, 0, 0, 0, 0, TrueRange.new, ⟨p, []⟩, ⟨cp, []⟩⟩) := by
  refine ⟨rfl, ?_, ?_, ?_, ?_⟩
  · intro hp
    cases p with
    | zero => exact absurd rfl hp
    | succ n => rfl
  · cases hc : CommodityChannelIndex.new cp <;>
      simp [TrendMagic.new, SimpleMovingAverage.new, hc]
  · cases hs : SimpleMovingAverage.new p <;>
      simp [TrendMagic.new, CommodityChannelIndex.new, hs]
  · intro hp hcp
    simp [TrendMagic.new, SimpleMovingAverage.new, CommodityChannelIndex.new, hp, hcp]

/-- C3 witness: period 1 (and CCI period 2) constructions succeed with the
zeroed initial states. -/
theorem c3_construction_witness :
    VolumeWeightedAveragePrice.new 1 = .ok ⟨0, 0, 0, 0, 0, 1, .HLC3⟩ ∧
    TrendMagic.new 1 1 2 = .ok ⟨1, 0, 0, 0, 0, TrueRange.new, ⟨1, []⟩, ⟨2, []⟩⟩ := by
  have h := c3_construction_amended 1 2 1
  exact ⟨h.2.1 (by decide), h.2.2.2.2 (by decide) (by decide)⟩

/-- Concrete sample instance: `TrendMagic::new(7, 2.0, 9)`. -/
def sampleTM7 : TrendMagic := ⟨2, 0, 0, 0, 0, ⟨0⟩, ⟨7, []⟩, ⟨9, []⟩⟩

/-- C10 counterexample: two `TrendMagic` instances constructed with
different ATR periods, multipliers and CCI periods have the identical
display label (the constant string), so the label cannot embed the
constructing parameters. -/
theorem c10_display_counterexample :
    TrendMagic.new 1 1 2 = .ok sampleTM ∧
    TrendMagic.new 7 2 9 = .ok sampleTM7 ∧
    sampleTM.display = sampleTM7.display ∧
    sampleTM.tr_sma.period ≠ sampleTM7.tr_sma.period ∧
    sampleTM.atr_multiplier ≠ sampleTM7.atr_multiplier ∧
    sampleTM.cci.period ≠ sampleTM7.cci.period := by
  refine ⟨rfl, rfl, rfl, by decide, ?_, by decide⟩
  simp [sampleTM, sampleTM7]

/-- C10 (amended): VWAP's display label `VWAP({period})` embeds the
constructing period (its decimal string occurs inside the label), while
`TrendMagic`'s display label is the fixed string
"Trend Magic by KivancOzbilgic", independent of its parameters. -/
theorem c10_display_amended (s : VolumeWeightedAveragePrice) (t : TrendMagic) :
    (toString s.period).toList <:+: s.display.toList ∧
    t.display = "Trend Magic by KivancOzbilgic" := by
  refine ⟨⟨"VWAP(".toList, ")".toList, ?_⟩, rfl⟩
  simp [VolumeWeightedAveragePrice.display, String.toList, String.data_append]

/-- The only price source is HLC3, so the instance method agrees with the
glossary's typical price on every state. -/
theorem typical_price_eq_tp (s : VolumeWeightedAveragePrice) (d : Bar) :
    s.typical_price d = d.tp := by
  obtain ⟨ct, cv, cv2, vw, va, p, src⟩ := s
  cases src
  rfl

/-- C4: each VWAP consume computes the typical price (high+low+close)/3,
adds volume, typical_price·volume and typical_price²·volume to the three
running totals, returns vwap = cumulative_total / cumulative_volume, and
stores a standard deviation equal to
sqrt(max 0 (cumulative_v2 / cumulative_volume − vwap²)). -/
theorem c4_vwap_consume_formula (s : VolumeWeightedAveragePrice) (d : Bar) :
    (s.next d).2 = (s.next d).1.vwap ∧
    (s.next d).1.cumulative_volume = s.cumulative_volume + d.volume ∧
    (s.next d).1.cumulative_total = s.cumulative_total + s.typical_price d * d.volume ∧
    (s.next d).1.cumulative_v2 = s.cumulative_v2 + s.typical_price d ^ 2 * d.volume ∧
    s.typical_price d = (d.high + d.low + d.close) / 3 ∧
    (s.next d).1.vwap = (s.next d).1.cumulative_total / (s.next d).1.cumulative_volume ∧
    (s.next d).1.stdDevValue =
      Real.sqrt (((max 0 ((s.next d).1.cumulative_v2 / (s.next d).1.cumulative_volume -
        (s.next d).1.vwap ^ 2) : ℚ) : ℝ)) := by
  obtain ⟨ct, cv, cv2, vw, va, p, src⟩ := s
  cases src
  refine ⟨rfl, ?_, ?_, ?_, rfl, rfl, ?_⟩
  · simp only [VolumeWeightedAveragePrice.next]
    ring
  · simp only [VolumeWeightedAveragePrice.next, VolumeWeightedAveragePrice.typical_price]
    ring
  · simp only [VolumeWeightedAveragePrice.next, VolumeWeightedAveragePrice.typical_price]
    ring
  · simp only [VolumeWeightedAveragePrice.next, VolumeWeightedAveragePrice.typical_price,
      VolumeWeightedAveragePrice.stdDevValue]
    rw [max_comm]
    ring_nf

/-- C6: after every consume call, on any state, the stored clamped variance
is non-negative (the `max · 0` clamp runs before the square root) and the
stored standard deviation is non-negative. -/
theorem c6_stddev_nonneg (s : VolumeWeightedAveragePrice) (d : Bar) :
    0 ≤ (s.next d).1.variance ∧ 0 ≤ (s.next d).1.stdDevValue := by
  constructor
  · simp only [VolumeWeightedAveragePrice.next]
    exact le_max_right _ _
  · exact Real.sqrt_nonneg _

/-- `runVWAP` over a cons. -/
theorem runVWAP_cons (s : VolumeWeightedAveragePrice) (b : Bar) (bs : List Bar) :
    runVWAP s (b :: bs) = runVWAP (s.next b).1 bs := rfl

/-- Consuming bars never changes VWAP's period or source. -/
theorem runVWAP_preserves (bs : List Bar) (s : VolumeWeightedAveragePrice) :
    (runVWAP s bs).period = s.period ∧ (runVWAP s bs).source = s.source := by
  induction bs generalizing s with
  | nil => exact ⟨rfl, rfl⟩
  | cons b bs ih =>
      rw [runVWAP_cons]
      exact ⟨(ih _).1, (ih _).2⟩

/-- Consuming bars never changes TrendMagic's multiplier or the periods of
its owned sub-indicators. -/
theorem runTrendMagic_preserves (bs : List Bar) (s : TrendMagic) :
    (runTrendMagic s bs).atr_multiplier = s.atr_multiplier ∧
    (runTrendMagic s bs).tr_sma.period = s.tr_sma.period ∧
    (runTrendMagic s bs).cci.period = s.cci.period := by
  induction bs generalizing s with
  | nil => exact ⟨rfl, rfl, rfl⟩
  | cons b bs ih =>
      rw [runTrendMagic_cons]
      refine ⟨((ih _).1).trans rfl, ((ih _).2.1).trans rfl, ((ih _).2.2).trans rfl⟩

/-- C7: for any valid construction parameters, resetting after consuming
any bar sequence restores the construction-time state exactly, so the next
consume behaves as on a freshly constructed instance; this holds for both
VWAP and TrendMagic (every owned sub-indicator is reset too). -/
theorem c7_reset_fresh (p ap cp : ℕ) (m : ℚ) (bars : List Bar) (b : Bar)
    (s₀ : VolumeWeightedAveragePrice) (t₀ : TrendMagic)
    (hv : VolumeWeightedAveragePrice.new p = .ok s₀)
    (ht : TrendMagic.new ap m cp = .ok t₀) :
    ((runVWAP s₀ bars).reset = s₀ ∧ (runVWAP s₀ bars).reset.next b = s₀.next b) ∧
    ((runTrendMagic t₀ bars).reset = t₀ ∧
      (runTrendMagic t₀ bars).reset.next b = t₀.next b) := by
  have hs₀ : s₀ = ⟨0, 0, 0, 0, 0, p, .HLC3⟩ := by
    cases p with
    | zero => simp [VolumeWeightedAveragePrice.new] at hv
    | succ n =>
        simp only [VolumeWeightedAveragePrice.new] at hv
        injection hv with h
        exact h.symm
  have hsma : ∀ q : ℕ, q ≠ 0 → SimpleMovingAverage.new q = .ok ⟨q, []⟩ := by
    intro q hq
    simp [SimpleMovingAverage.new, hq]
  have hcci : ∀ q : ℕ, q ≠ 0 → CommodityChannelIndex.new q = .ok ⟨q, []⟩ := by
    intro q hq
    simp [CommodityChannelIndex.new, hq]
  have hap : ap ≠ 0 := by
    intro h
    subst h
    cases hc : CommodityChannelIndex.new cp <;>
      simp [TrendMagic.new, SimpleMovingAverage.new, hc] at ht
  have hcp : cp ≠ 0 := by
    intro h
    subst h
    cases hs : SimpleMovingAverage.new ap <;>
      simp [TrendMagic.new, CommodityChannelIndex.new, hs] at ht
  have ht₀ : t₀ = ⟨m, 0, 0, 0, 0, TrueRange.new, ⟨ap, []⟩, ⟨cp, []⟩⟩ := by
    rw [TrendMagic.new, hsma ap hap, hcci cp hcp] at ht
    cases ht
    rfl
  subst hs₀
  subst ht₀
  have h1 : (runVWAP (⟨0, 0, 0, 0, 0, p, .HLC3⟩ : VolumeWeightedAveragePrice) bars).reset =
      (⟨0, 0, 0, 0, 0, p, .HLC3⟩ : VolumeWeightedAveragePrice) := by
    have hp := runVWAP_preserves bars ⟨0, 0, 0, 0, 0, p, .HLC3⟩
    simp [VolumeWeightedAveragePrice.reset, hp.1, hp.2]
  have h2 : (runTrendMagic (⟨m, 0, 0, 0, 0, TrueRange.new, ⟨ap, []⟩, ⟨cp, []⟩⟩ : TrendMagic)
      bars).reset = (⟨m, 0, 0, 0, 0, TrueRange.new, ⟨ap, []⟩, ⟨cp, []⟩⟩ : TrendMagic) := by
    have hp := runTrendMagic_preserves bars ⟨m, 0, 0, 0, 0, ⟨0⟩, ⟨ap, []⟩, ⟨cp, []⟩⟩
    simp only [TrueRange.new]
    simp [TrendMagic.reset, TrueRange.reset, SimpleMovingAverage.reset,
      CommodityChannelIndex.reset, hp.1, hp.2.1, hp.2.2]
  exact ⟨⟨h1, by rw [h1]⟩, ⟨h2, by rw [h2]⟩⟩

/-- C7 witness: with period 1 (VWAP) and parameters (1, 1.0, 2)
(TrendMagic), after one bar a reset restores the freshly constructed
state. -/
theorem c7_reset_fresh_witness :
    ((runVWAP ⟨0, 0, 0, 0, 0, 1, .HLC3⟩ [sampleBar1]).reset =
      (⟨0, 0, 0, 0, 0, 1, .HLC3⟩ : VolumeWeightedAveragePrice)) ∧
    ((runTrendMagic sampleTM [sampleBar1]).reset = sampleTM) := by
  have h := c7_reset_fresh 1 1 2 1 [sampleBar1] sampleBar2
    ⟨0, 0, 0, 0, 0, 1, .HLC3⟩ sampleTM rfl rfl
  exact ⟨h.1.1, h.2.1⟩

/-- A left fold of `min` is a lower bound of its seed and of every element
of the list. -/
theorem foldl_min_le (l : List ℚ) (a : ℚ) :
    l.foldl min a ≤ a ∧ ∀ y ∈ l, l.foldl min a ≤ y := by
  induction l generalizing a with
  | nil => exact ⟨le_refl _, by simp⟩
  | cons c l ih =>
      refine ⟨le_trans (ih (min a c)).1 (min_le_left _ _), ?_⟩
      intro y hy
      rcases List.mem_cons.mp hy with rfl | hy
      · exact le_trans (ih (min a y)).1 (min_le_right _ _)
      · exact (ih (min a c)).2 y hy

/-- A left fold of `max` is an upper bound of its seed and of every element
of the list. -/
theorem le_foldl_max (l : List ℚ) (a : ℚ) :
    a ≤ l.foldl max a ∧ ∀ y ∈ l, y ≤ l.foldl max a := by
  induction l generalizing a with
  | nil => exact ⟨le_refl _, by simp⟩
  | cons c l ih =>
      refine ⟨le_trans (le_max_left _ _) (ih (max a c)).1, ?_⟩
      intro y hy
      rcases List.mem_cons.mp hy with rfl | hy
      · exact le_trans (le_max_right _ _) (ih (max a y)).1
      · exact (ih (max a c)).2 y hy

/-- Running invariant for the VWAP convexity bound: positive cumulative
volume, the cumulative total bracketed by `m`/`M` times the cumulative
volume, and the stored vwap equal to their quotient, are all preserved by
consuming bars whose volumes are positive and whose typical prices lie in
`[m, M]`. -/
theorem runVWAP_bounds (bs : List Bar) (s : VolumeWeightedAveragePrice) (m M : ℚ)
    (hcv : 0 < s.cumulative_volume)
    (hlo : m * s.cumulative_volume ≤ s.cumulative_total)
    (hhi : s.cumulative_total ≤ M * s.cumulative_volume)
    (hvw : s.vwap = s.cumulative_total / s.cumulative_volume)
    (hbs : ∀ x ∈ bs, 0 < x.volume ∧ m ≤ x.tp ∧ x.tp ≤ M) :
    0 < (runVWAP s bs).cumulative_volume ∧
    m * (runVWAP s bs).cumulative_volume ≤ (runVWAP s bs).cumulative_total ∧
    (runVWAP s bs).cumulative_total ≤ M * (runVWAP s bs).cumulative_volume ∧
    (runVWAP s bs).vwap =
      (runVWAP s bs).cumulative_total / (runVWAP s bs).cumulative_volume := by
  induction bs generalizing s with
  | nil => exact ⟨hcv, hlo, hhi, hvw⟩
  | cons x bs ih =>
      rw [runVWAP_cons]
      obtain ⟨hx, hxs⟩ := List.forall_mem_cons.mp hbs
      refine ih _ ?_ ?_ ?_ ?_ hxs
      · simp only [VolumeWeightedAveragePrice.next]
        exact add_pos hx.1 hcv
      · simp only [VolumeWeightedAveragePrice.next, typical_price_eq_tp]
        have h1 : m * x.volume ≤ x.tp * x.volume :=
          mul_le_mul_of_nonneg_right hx.2.1 hx.1.le
        calc m * (x.volume + s.cumulative_volume)
            = m * x.volume + m * s.cumulative_volume := by ring
          _ ≤ x.tp * x.volume + s.cumulative_total := add_le_add h1 hlo
      · simp only [VolumeWeightedAveragePrice.next, typical_price_eq_tp]
        have h1 : x.tp * x.volume ≤ M * x.volume :=
          mul_le_mul_of_nonneg_right hx.2.2 hx.1.le
        calc x.tp * x.volume + s.cumulative_total
            ≤ M * x.volume + M * s.cumulative_volume := add_le_add h1 hhi
          _ = M * (x.volume + s.cumulative_volume) := by ring
      · simp only [VolumeWeightedAveragePrice.next, typical_price_eq_tp]

/-- C8: feeding a non-empty bar sequence with strictly positive volumes
into a freshly constructed VWAP, the resulting vwap value lies between the
minimum and the maximum typical price seen so far. -/
theorem c8_vwap_convex (p : ℕ) (b : Bar) (bs : List Bar)
    (s₀ : VolumeWeightedAveragePrice)
    (hnew : VolumeWeightedAveragePrice.new p = .ok s₀)
    (hvol : ∀ x ∈ b :: bs, 0 < x.volume) :
    (bs.map Bar.tp).foldl min b.tp ≤ (runVWAP s₀ (b :: bs)).vwap ∧
    (runVWAP s₀ (b :: bs)).vwap ≤ (bs.map Bar.tp).foldl max b.tp := by
  have hs₀ : s₀ = ⟨0, 0, 0, 0, 0, p, .HLC3⟩ := by
    cases p with
    | zero => simp [VolumeWeightedAveragePrice.new] at hnew
    | succ n =>
        simp only [VolumeWeightedAveragePrice.new] at hnew
        injection hnew with h
        exact h.symm
  subst hs₀
  set m := (bs.map Bar.tp).foldl min b.tp with hm
  set M := (bs.map Bar.tp).foldl max b.tp with hM
  have hmb : m ≤ b.tp := (foldl_min_le _ _).1
  have hMb : b.tp ≤ M := (le_foldl_max _ _).1
  have hms : ∀ x ∈ bs, m ≤ x.tp := fun x hx =>
    (foldl_min_le (bs.map Bar.tp) b.tp).2 x.tp (List.mem_map_of_mem Bar.tp hx)
  have hMs : ∀ x ∈ bs, x.tp ≤ M := fun x hx =>
    (le_foldl_max (bs.map Bar.tp) b.tp).2 x.tp (List.mem_map_of_mem Bar.tp hx)
  obtain ⟨hb, hbs⟩ := List.forall_mem_cons.mp hvol
  rw [runVWAP_cons]
  have hrun := runVWAP_bounds bs
    ((⟨0, 0, 0, 0, 0, p, .HLC3⟩ : VolumeWeightedAveragePrice).next b).1 m M
    (by simp [VolumeWeightedAveragePrice.next]; exact hb)
    (by
      simp only [VolumeWeightedAveragePrice.next, typical_price_eq_tp]
      simp only [add_zero]
      exact mul_le_mul_of_nonneg_right hmb hb.le)
    (by
      simp only [VolumeWeightedAveragePrice.next, typical_price_eq_tp]
      simp only [add_zero]
      exact mul_le_mul_of_nonneg_right hMb hb.le)
    (by simp only [VolumeWeightedAveragePrice.next, typical_price_eq_tp])
    (fun x hx => ⟨hbs x hx, hms x hx, hMs x hx⟩)
  obtain ⟨hcv, hlo, hhi, hvw⟩ := hrun
  rw [hvw]
  exact ⟨(le_div_iff₀ hcv).mpr hlo, (div_le_iff₀ hcv).mpr hhi⟩

/-- C8 witness: with period 1 and the two concrete sample bars (volumes 1),
the final vwap lies between the minimum and maximum typical price. -/
theorem c8_vwap_convex_witness :
    (([sampleBar2].map Bar.tp).foldl min sampleBar1.tp ≤
      (runVWAP ⟨0, 0, 0, 0, 0, 1, .HLC3⟩ [sampleBar1, sampleBar2]).vwap) ∧
    ((runVWAP ⟨0, 0, 0, 0, 0, 1, .HLC3⟩ [sampleBar1, sampleBar2]).vwap ≤
      ([sampleBar2].map Bar.tp).foldl max sampleBar1.tp) := by
  refine c8_vwap_convex 1 sampleBar1 [sampleBar2] _ rfl ?_
  intro x hx
  rcases List.mem_cons.mp hx with rfl | hx
  · norm_num [sampleBar1]
  · rcases List.mem_singleton.mp hx with rfl
    norm_num [sampleBar2]

/-- One consume step depends only on the cumulative fields, never on the
period: states agreeing on everything but the period still agree on
everything but the period afterwards, and return the same value. -/
theorem vwapNext_period_blind (s₁ s₂ : VolumeWeightedAveragePrice) (d : Bar)
    (h1 : s₁.cumulative_total = s₂.cumulative_total)
    (h2 : s₁.cumulative_volume = s₂.cumulative_volume)
    (h3 : s₁.cumulative_v2 = s₂.cumulative_v2)
    (h4 : s₁.vwap = s₂.vwap)
    (h5 : s₁.variance = s₂.variance) :
    (s₁.next d).1.cumulative_total = (s₂.next d).1.cumulative_total ∧
    (s₁.next d).1.cumulative_volume = (s₂.next d).1.cumulative_volume ∧
    (s₁.next d).1.cumulative_v2 = (s₂.next d).1.cumulative_v2 ∧
    (s₁.next d).1.vwap = (s₂.next d).1.vwap ∧
    (s₁.next d).1.variance = (s₂.next d).1.variance ∧
    (s₁.next d).2 = (s₂.next d).2 := by
  simp [VolumeWeightedAveragePrice.next, typical_price_eq_tp, h1, h2, h3, h4, h5]

/-- Run-level version of period blindness for the cumulative fields. -/
theorem runVWAP_period_blind (bars : List Bar) (s₁ s₂ : VolumeWeightedAveragePrice)
    (h1 : s₁.cumulative_total = s₂.cumulative_total)
    (h2 : s₁.cumulative_volume = s₂.cumulative_volume)
    (h3 : s₁.cumulative_v2 = s₂.cumulative_v2)
    (h4 : s₁.vwap = s₂.vwap)
    (h5 : s₁.variance = s₂.variance) :
    (runVWAP s₁ bars).cumulative_total = (runVWAP s₂ bars).cumulative_total ∧
    (runVWAP s₁ bars).cumulative_volume = (runVWAP s₂ bars).cumulative_volume ∧
    (runVWAP s₁ bars).cumulative_v2 = (runVWAP s₂ bars).cumulative_v2 ∧
    (runVWAP s₁ bars).vwap = (runVWAP s₂ bars).vwap ∧
    (runVWAP s₁ bars).variance = (runVWAP s₂ bars).variance := by
  induction bars generalizing s₁ s₂ with
  | nil => exact ⟨h1, h2, h3, h4, h5⟩
  | cons b bars ih =>
      rw [runVWAP_cons, runVWAP_cons]
      obtain ⟨g1, g2, g3, g4, g5, _⟩ := vwapNext_period_blind s₁ s₂ b h1 h2 h3 h4 h5
      exact ih _ _ g1 g2 g3 g4 g5

/-- C9: two VWAP instances constructed with any (non-zero) periods and fed
the identical bar sequence have the same vwap, clamped variance and stored
standard deviation after every run — the period never influences the
accumulation. -/
theorem c9_period_independence (p₁ p₂ : ℕ)
    (s₁ s₂ : VolumeWeightedAveragePrice) (bars : List Bar)
    (h₁ : VolumeWeightedAveragePrice.new p₁ = .ok s₁)
    (h₂ : VolumeWeightedAveragePrice.new p₂ = .ok s₂) :
    (runVWAP s₁ bars).vwap = (runVWAP s₂ bars).vwap ∧
    (runVWAP s₁ bars).variance = (runVWAP s₂ bars).variance ∧
    (runVWAP s₁ bars).stdDevValue = (runVWAP s₂ bars).stdDevValue := by
  have e₁ : s₁ = ⟨0, 0, 0, 0, 0, p₁, .HLC3⟩ := by
    cases p₁ with
    | zero => simp [VolumeWeightedAveragePrice.new] at h₁
    | succ n =>
        simp only [VolumeWeightedAveragePrice.new] at h₁
        injection h₁ with h
        exact h.symm
  have e₂ : s₂ = ⟨0, 0, 0, 0, 0, p₂, .HLC3⟩ := by
    cases p₂ with
    | zero => simp [VolumeWeightedAveragePrice.new] at h₂
    | succ n =>
        simp only [VolumeWeightedAveragePrice.new] at h₂
        injection h₂ with h
        exact h.symm
  subst e₁
  subst e₂
  obtain ⟨_, _, _, h4, h5⟩ := runVWAP_period_blind bars
    (⟨0, 0, 0, 0, 0, p₁, .HLC3⟩ : VolumeWeightedAveragePrice)
    (⟨0, 0, 0, 0, 0, p₂, .HLC3⟩ : VolumeWeightedAveragePrice)
    rfl rfl rfl rfl rfl
  exact ⟨h4, h5, by rw [VolumeWeightedAveragePrice.stdDevValue,
    VolumeWeightedAveragePrice.stdDevValue, h5]⟩

/-- C9 witness: periods 1 and 2 over the concrete sample bar give equal
vwap, variance and standard deviation. -/
theorem c9_period_independence_witness :
    (runVWAP ⟨0, 0, 0, 0, 0, 1, .HLC3⟩ [sampleBar1]).vwap =
      (runVWAP ⟨0, 0, 0, 0, 0, 2, .HLC3⟩ [sampleBar1]).vwap ∧
    (runVWAP ⟨0, 0, 0, 0, 0, 1, .HLC3⟩ [sampleBar1]).stdDevValue =
      (runVWAP ⟨0, 0, 0, 0, 0, 2, .HLC3⟩ [sampleBar1]).stdDevValue := by
  have h := c9_period_independence 1 2 ⟨0, 0, 0, 0, 0, 1, .HLC3⟩
    ⟨0, 0, 0, 0, 0, 2, .HLC3⟩ [sampleBar1] rfl rfl
  exact ⟨h.1, h.2.2⟩
